import Mathlib

/-!
# Verification of the e2e_low_latency_wireless analysis scripts

Shallow embedding of the log-parsing and multi-run aggregation pipeline of the
repository (iperf_csv.py, ss_csv.py, dualq_plot.py, fifo_plot_multi.py,
rtt_plot.py, thp_plot.py, rlc_no_slice.py), together with theorems settling the
specification claims about it.

Modelling conventions:
* Log lines are lists of characters; the concrete regular expressions of the
  source are implemented as character-level matchers with the same semantics
  (leftmost search, greedy digit/whitespace runs -- for these patterns greedy
  matching coincides with backtracking regex matching because a digit run is
  always followed by a non-digit literal, and a whitespace run by a
  non-whitespace literal).
* Python floats are modelled as rationals; `statistics.pstdev` and `np.std`
  return the square root of the population variance, which is irrational-valued,
  so the embedded aggregators return the population variance (the square of the
  standard deviation) and theorems speak about the standard deviation through
  `Real.sqrt` of that component.
* Python dicts preserve insertion order; they are modelled as association lists
  with append-at-end insertion.
* Python `sorted`/`list.sort` are stable sorts; they are modelled with
  `List.insertionSort`, which is also stable, so the two agree on every input.
-/

/-! ## Character-level utilities shared by the parsers -/

/-- Python whitespace (`str.split` separators and the regex class for spaces). -/
def pyIsSpace (c : Char) : Bool :=
  c = ' ' || c = '\t' || c = '\n' || c = '\r' || c = '\x0b' || c = '\x0c'

/-- Value of a run of decimal digit characters. -/
def digitsVal (ds : List Char) : ℕ :=
  ds.foldl (fun acc c => 10 * acc + (c.toNat - '0'.toNat)) 0

/-- Value of a run of digits read as a fractional part (after a decimal point). -/
def fracVal (ds : List Char) : ℚ :=
  (digitsVal ds : ℚ) / 10 ^ ds.length

/-- Python `str.strip()`: drop leading and trailing whitespace. -/
def pyStrip (l : List Char) : List Char :=
  ((l.dropWhile pyIsSpace).reverse.dropWhile pyIsSpace).reverse

/-- The first whitespace-delimited token of a line (`line.split()[0]`),
`none` when the line is empty or all whitespace (`if not parts: continue`). -/
def firstToken (l : List Char) : Option (List Char) :=
  let l1 := l.dropWhile pyIsSpace
  if l1.isEmpty then none else some (l1.takeWhile (fun c => !pyIsSpace c))

/-- Mantissa of a Python float literal: `digits [. digits*]` or `. digits`;
returns the value and the unconsumed remainder. -/
def pyFloatMantissa (l : List Char) : Option (ℚ × List Char) :=
  let ds := l.takeWhile Char.isDigit
  let r := l.dropWhile Char.isDigit
  match ds, r with
  | [], '.' :: r2 =>
      let fs := r2.takeWhile Char.isDigit
      if fs.isEmpty then none
      else some (fracVal fs, r2.dropWhile Char.isDigit)
  | [], _ => none
  | _, '.' :: r2 =>
      let fs := r2.takeWhile Char.isDigit
      some ((digitsVal ds : ℚ) + fracVal fs, r2.dropWhile Char.isDigit)
  | _, _ => some ((digitsVal ds : ℚ), r)

/-- Apply an optional exponent part (after `e`/`E`) to a mantissa value. -/
def pyApplyExp (m : ℚ) (r : List Char) : Option ℚ :=
  let p := match r with
    | '+' :: t => (false, t)
    | '-' :: t => (true, t)
    | _ => (false, r)
  let ds := p.2.takeWhile Char.isDigit
  if ds.isEmpty || !(p.2.dropWhile Char.isDigit).isEmpty then none
  else some (if p.1 then m / 10 ^ digitsVal ds else m * 10 ^ digitsVal ds)

/-- Unsigned Python float literal, requiring the whole input to be consumed. -/
def pyFloatCore (l : List Char) : Option ℚ :=
  match pyFloatMantissa l with
  | none => none
  | some (m, rest) =>
    match rest with
    | [] => some m
    | 'e' :: r => pyApplyExp m r
    | 'E' :: r => pyApplyExp m r
    | _ => none

/-- Python `float(tok)` on a whitespace-free token: optional sign, then a
decimal literal with optional fraction and exponent.  (`inf`/`nan`/underscore
forms never occur in the logs and are not modelled.) -/
def pyFloat (l : List Char) : Option ℚ :=
  match l with
  | '+' :: r => pyFloatCore r
  | '-' :: r => (pyFloatCore r).map Neg.neg
  | _ => pyFloatCore l

/-- Digits-only body of a Python int literal. -/
def pyIntDigits (r : List Char) : Option ℕ :=
  if !r.isEmpty && r.all Char.isDigit then some (digitsVal r) else none

/-- Python `int(s)`: surrounding whitespace allowed, optional sign, digits. -/
def pyInt (l : List Char) : Option ℤ :=
  match pyStrip l with
  | '+' :: r => (pyIntDigits r).map Int.ofNat
  | '-' :: r => (pyIntDigits r).map (fun n => -(n : ℤ))
  | r => (pyIntDigits r).map Int.ofNat

/-- `re.search` driver: try the at-position matcher at every start position,
left to right, returning the leftmost match. -/
def searchWith (f : List Char → Option β) : List Char → Option β
  | [] => none
  | c :: rest => (f (c :: rest)).orElse (fun _ => searchWith f rest)

/-- One or more whitespace characters (`\s+`), returning the remainder. -/
def eatSpaces1 (l : List Char) : Option (List Char) :=
  match l with
  | c :: _ => if pyIsSpace c then some (l.dropWhile pyIsSpace) else none
  | [] => none

/-- One or more digits (`(\d+)` capture), returning value and remainder. -/
def eatDigits1 (l : List Char) : Option (ℕ × List Char) :=
  let ds := l.takeWhile Char.isDigit
  if ds.isEmpty then none else some (digitsVal ds, l.dropWhile Char.isDigit)

/-- A float-shaped capture `(\d+\.\d+)` anchored at the current position. -/
def floatPairAt (l : List Char) : Option ℚ :=
  let ds := l.takeWhile Char.isDigit
  match l.dropWhile Char.isDigit with
  | '.' :: r2 =>
    let fs := r2.takeWhile Char.isDigit
    if ds.isEmpty || fs.isEmpty then none
    else some ((digitsVal ds : ℚ) + fracVal fs)
  | _ => none

/-! ## Aggregation statistics (iperf_csv.py compute_mean_std, rtt_plot.py mean_std) -/

/-- `statistics.mean`: arithmetic mean. -/
def pymean (l : List ℚ) : ℚ := l.sum / (l.length : ℚ)

/-- Population variance, the square of `statistics.pstdev` (divisor = count). -/
def pvariance (l : List ℚ) : ℚ :=
  ((l.map (fun x => (x - pymean l) ^ 2)).sum) / (l.length : ℚ)

/-- `compute_mean_std` from iperf_csv.py lines 179-184.  The middle component is
the population variance, i.e. the square of the `statistics.pstdev` value the
source returns (see the modelling conventions above). -/
def compute_mean_std (values : List ℚ) : ℚ × ℚ × ℕ :=
  match values with
  | [] => (0, 0, 0)
  | [v] => (v, 0, 1)
  | _ => (pymean values, pvariance values, values.length)

/-- `mean_std` from rtt_plot.py lines 91-96 (same shape as `compute_mean_std`). -/
def mean_std (vals : List ℚ) : ℚ × ℚ × ℕ :=
  match vals with
  | [] => (0, 0, 0)
  | [v] => (v, 0, 1)
  | _ => (pymean vals, pvariance vals, vals.length)

/-! ## Pattern matchers for the specific regexes of the source -/

/-- `fd=(\d+)` anchored at the current position. -/
def fdAt : List Char → Option ℕ
  | 'f' :: 'd' :: '=' :: r => eatDigits1 r |>.map (·.1)
  | _ => none

/-- `re.search(r'fd=(\d+)', line)` from ss_csv.py line 21. -/
def searchFd (l : List Char) : Option ℕ := searchWith fdAt l

/-- `rtt:(\d+\.\d+)` anchored at the current position. -/
def rttAt : List Char → Option ℚ
  | 'r' :: 't' :: 't' :: ':' :: r => floatPairAt r
  | _ => none

/-- `re.search(r'rtt:(\d+\.\d+)', line)` from ss_csv.py line 22. -/
def searchRtt (l : List Char) : Option ℚ := searchWith rttAt l

/-- Literal `us` at the current position. -/
def expectUs : List Char → Option (List Char)
  | 'u' :: 's' :: r => some r
  | _ => none

/-- Literal `delay_l` at the current position. -/
def expectDelayL : List Char → Option (List Char)
  | 'd' :: 'e' :: 'l' :: 'a' :: 'y' :: '_' :: 'l' :: r => some r
  | _ => none

/-- `delay_c\s+(\d+)us\s+delay_l\s+(\d+)us` anchored at the current position. -/
def delayAt : List Char → Option (ℕ × ℕ)
  | 'd' :: 'e' :: 'l' :: 'a' :: 'y' :: '_' :: 'c' :: r => do
    let r1 ← eatSpaces1 r
    let (a, r2) ← eatDigits1 r1
    let r3 ← expectUs r2
    let r4 ← eatSpaces1 r3
    let r5 ← expectDelayL r4
    let r6 ← eatSpaces1 r5
    let (b, r7) ← eatDigits1 r6
    let _ ← expectUs r7
    pure (a, b)
  | _ => none

/-- `pattern_delay.search` from dualq_plot.py line 29. -/
def searchDelay (l : List Char) : Option (ℕ × ℕ) := searchWith delayAt l

/-- `pattern_time.match` from dualq_plot.py line 28: `^(\d+\.\d+)` anchored at
the start of the (stripped) line. -/
def timeAt (l : List Char) : Option ℚ := floatPairAt l

/-- `\(dropped\s+(\d+),` anchored at the current position. -/
def droppedAt : List Char → Option ℕ
  | '(' :: 'd' :: 'r' :: 'o' :: 'p' :: 'p' :: 'e' :: 'd' :: r => do
    let r1 ← eatSpaces1 r
    let (n, r2) ← eatDigits1 r1
    match r2 with
    | ',' :: _ => pure n
    | _ => none
  | _ => none

/-- `re.search(r'\(dropped\s+(\d+),', line)` from fifo_plot_multi.py line 56. -/
def searchDropped (l : List Char) : Option ℕ := searchWith droppedAt l

/-- `backlog\s+(\d+)b\s+(\d+)p` anchored at the current position. -/
def backlogAt : List Char → Option (ℕ × ℕ)
  | 'b' :: 'a' :: 'c' :: 'k' :: 'l' :: 'o' :: 'g' :: r => do
    let r1 ← eatSpaces1 r
    let (x, r2) ← eatDigits1 r1
    let r3 ← (match r2 with | 'b' :: t => some t | _ => none)
    let r4 ← eatSpaces1 r3
    let (y, r5) ← eatDigits1 r4
    match r5 with
    | 'p' :: _ => pure (x, y)
    | _ => none
  | _ => none

/-- `re.search(r'backlog\s+(\d+)b\s+(\d+)p', line)` from fifo_plot_multi.py line 62. -/
def searchBacklog (l : List Char) : Option (ℕ × ℕ) := searchWith backlogAt l

/-- The leading timestamp of a line: `float(line.split(maxsplit=1)[0])`,
`none` when the line is blank or its first token does not parse. -/
def lineTs (line : List Char) : Option ℚ := (firstToken line).bind pyFloat

/-- The first parseable leading timestamp of a file (shared by ss_csv.py's
`first_timestamp` and fifo_plot_multi.py's `begin_ts`). -/
def firstTs (lines : List (List Char)) : Option ℚ := lines.findSome? lineTs

/-! ## ss_csv.py: parse_srtt_from_log (ss-style fd/rtt two-line extractor) -/

/-- Loop state of `parse_srtt_from_log` (ss_csv.py lines 17-24), with the
emitted samples enriched by the timestamp of the line that produced them
(the source only accumulates the rtt values per fd). -/
structure SsState where
  flow : List (ℕ × ℚ × ℚ)
  last_fd : Option ℕ
  first_timestamp : Option ℚ
deriving DecidableEq

/-- One iteration of the line loop of `parse_srtt_from_log`
(ss_csv.py lines 27-62). -/
def ssLine (st : SsState) (line : List Char) : SsState :=
  match lineTs line with
  | none => st
  | some ts =>
    let first := st.first_timestamp.getD ts
    if ts - first < 60 then
      { st with first_timestamp := some first }
    else
      let ls := pyStrip line
      match searchFd ls with
      | some fdVal =>
        if fdVal = 4 then
          { st with first_timestamp := some first, last_fd := none }
        else
          { st with first_timestamp := some first, last_fd := some fdVal }
      | none =>
        match st.last_fd, searchRtt ls with
        | some fd, some v =>
          { st with first_timestamp := some first, last_fd := none,
                    flow := st.flow ++ [(fd, ts, v)] }
        | some _, none =>
          { st with first_timestamp := some first, last_fd := none }
        | none, _ => { st with first_timestamp := some first }

/-- The (fd, line-timestamp, srtt) samples emitted by `parse_srtt_from_log`,
in emission order. -/
def ss_samples (lines : List (List Char)) : List (ℕ × ℚ × ℚ) :=
  (lines.foldl ssLine ⟨[], none, none⟩).flow

/-- Append a value to the list held under a key in an insertion-ordered
association list (Python `dict.setdefault(k, []).append(v)`). -/
def assocAppend [DecidableEq κ] (k : κ) (v : ℚ) :
    List (κ × List ℚ) → List (κ × List ℚ)
  | [] => [(k, [v])]
  | (k2, vs) :: rest =>
    if k2 = k then (k2, vs ++ [v]) :: rest else (k2, vs) :: assocAppend k v rest

/-- `parse_srtt_from_log` (ss_csv.py lines 8-64): the per-fd srtt sample map,
as an insertion-ordered association list. -/
def parse_srtt_from_log (lines : List (List Char)) : List (ℕ × List ℚ) :=
  (ss_samples lines).foldl (fun m s => assocAppend s.1 s.2.2 m) []

/-! ## dualq_plot.py: parse_dualq_monitor_delay_only -/

/-- Sort key order for the dualq samples: `sorted(..., key=lambda x: x[0])`. -/
def dqLe (a b : ℚ × ℚ × ℚ) : Prop := a.1 ≤ b.1

instance : DecidableRel dqLe := fun a b => inferInstanceAs (Decidable (a.1 ≤ b.1))

instance : IsTotal (ℚ × ℚ × ℚ) dqLe := ⟨fun a b => le_total a.1 b.1⟩

instance : IsTrans (ℚ × ℚ × ℚ) dqLe := ⟨fun _ _ _ h1 h2 => le_trans h1 h2⟩

/-- One line of `parse_dualq_monitor_delay_only` (dualq_plot.py lines 33-57):
the line is stripped, its start must match `^(\d+\.\d+)` (the `float`
conversion of that capture never fails), and `delay_c ...us delay_l ...us`
must occur; the delays are converted with `float`. -/
def parseDualqLine (line : List Char) : Option (ℚ × ℚ × ℚ) :=
  let l := pyStrip line
  match timeAt l with
  | none => none
  | some t =>
    match searchDelay l with
    | none => none
    | some (a, b) => some (t, (a : ℚ), (b : ℚ))

/-- `parse_dualq_monitor_delay_only` (dualq_plot.py lines 7-69) on the lines of
an existing file: the per-line extraction, then the stable sort by timestamp
(the source zips three parallel lists; the zipped triple list is modelled
directly). -/
def parse_dualq_monitor_delay_only (lines : List (List Char)) : List (ℚ × ℚ × ℚ) :=
  List.insertionSort dqLe (lines.filterMap parseDualqLine)

/-! ## fifo_plot_multi.py: parse_fifo_file and compute_mean_queue_delay -/

/-- One extracted line of a TBF monitor file (the source keeps four parallel
lists `times / dropped_vals / backlog_pkts / backlog_bytes_vals`; this is
their zip). -/
structure FifoSample where
  ts : ℚ
  dropped : ℕ
  backlog_pkts : ℕ
  backlog_bytes : ℕ
deriving DecidableEq

/-- Loop state of `parse_fifo_file`: the source initializes `begin_ts = -1`
and treats any negative value as "not yet set". -/
structure FifoState where
  samples : List FifoSample
  begin_ts : ℚ
deriving DecidableEq

/-- One iteration of the line loop of `parse_fifo_file`
(fifo_plot_multi.py lines 32-72). -/
def fifoLine (st : FifoState) (line : List Char) : FifoState :=
  match lineTs line with
  | none => st
  | some ts =>
    let b := if st.begin_ts < 0 then ts else st.begin_ts
    if ts - b < 60 then { st with begin_ts := b }
    else
      match searchDropped line, searchBacklog line with
      | some d, some (bBytes, bPkts) =>
        { samples := st.samples ++ [⟨ts, d, bPkts, bBytes⟩], begin_ts := b }
      | _, _ => { st with begin_ts := b }

/-- `parse_fifo_file` (fifo_plot_multi.py lines 7-74). -/
def parse_fifo_file (lines : List (List Char)) : List FifoSample :=
  (lines.foldl fifoLine ⟨[], -1⟩).samples

/-- Ascending run-index range `[b, e]` (Python `range(b, e + 1)`). -/
def runRange (b e : ℕ) : List ℕ := List.range' b (e + 1 - b)

/-- The queue delays one run contributes to `compute_mean_queue_delay`
(fifo_plot_multi.py lines 90-107): nothing for a missing file, otherwise the
inferred delays of its samples with the `> 0.1` ones dropped.  A file with no
valid lines is skipped by the source (`if not times: continue`) which likewise
contributes nothing. -/
def runDelays (fs : ℕ → Option (List (List Char))) (link_speed_mbps : ℚ)
    (i : ℕ) : List ℚ :=
  match fs i with
  | none => []
  | some content =>
    ((parse_fifo_file content).map
      (fun s => (s.backlog_bytes * 8 : ℚ) / (link_speed_mbps * 10 ^ 6))).filter
      (fun d => d ≤ 1 / 10)

/-- The `all_delays` accumulation of `compute_mean_queue_delay`. -/
def allDelays (fs : ℕ → Option (List (List Char))) (b e : ℕ)
    (link_speed_mbps : ℚ) : List ℚ :=
  (runRange b e).foldl (fun acc i => acc ++ runDelays fs link_speed_mbps i) []

/-- The dynamically-typed return value of `compute_mean_queue_delay`
(fifo_plot_multi.py lines 109-112): the bare float `0.0` when no delay
survives, otherwise the `(np.mean, np.std)` pair.  `np.std` is the square
root of the population variance; the `pair` constructor carries the
variance (see the modelling conventions). -/
inductive MeanDelayResult
  | scalar (v : ℚ)
  | pair (mean variance : ℚ)
deriving DecidableEq

/-- `compute_mean_queue_delay` (fifo_plot_multi.py lines 77-112). -/
def compute_mean_queue_delay (fs : ℕ → Option (List (List Char))) (b e : ℕ)
    (link_speed_mbps : ℚ) : MeanDelayResult :=
  let ds := allDelays fs b e link_speed_mbps
  if ds.isEmpty then .scalar 0
  else .pair (pymean ds) (pvariance ds)

/-- The unconditional unpacking `mean_delay, std_delay = compute_mean_queue_delay(...)`
in `main` (fifo_plot_multi.py line 128): unpacking a bare float raises a
TypeError, modelled as `none`. -/
def fifo_main_unpack : MeanDelayResult → Option (ℚ × ℚ)
  | .pair m v => some (m, v)
  | .scalar _ => none

/-! ## iperf_csv.py: parse_iperf_json and the aggregation loop of main -/

/-- One entry of `end.streams[].sender` in an iperf JSON document. -/
structure IperfStream where
  socket : Option ℕ
  bits_per_second : ℚ
deriving DecidableEq

/-- One extracted flow (`parse_iperf_json` result rows, iperf_csv.py
lines 46-50): socket id and throughput in Mbps. -/
structure IperfFlow where
  socket : Option ℕ
  mbps : ℚ
deriving DecidableEq

/-- `parse_iperf_json` (iperf_csv.py lines 8-53): per-flow Mbps rows
(`bits_per_second / 1e6`) and the file-level total.  `none` models a file
that cannot be opened or JSON-decoded, which yields no flows and total 0. -/
def parse_iperf_json (doc : Option (List IperfStream)) : List IperfFlow × ℚ :=
  match doc with
  | none => ([], 0)
  | some streams =>
    let flows := streams.map (fun s => ⟨s.socket, s.bits_per_second / 10 ^ 6⟩)
    (flows, (flows.map (·.mbps)).sum)

/-- Cross-run accumulators of `main` (iperf_csv.py lines 86-93):
`cubic_ue_across_runs` / `prague_ue_across_runs` as insertion-ordered
association lists from socket to Mbps values, and
`cubic_sum_per_run` / `prague_sum_per_run` read back in ascending run order
(the dict is written exactly once per run index, then read in range order). -/
structure IperfAcc where
  cubicUE : List (Option ℕ × List ℚ)
  pragueUE : List (Option ℕ × List ℚ)
  cubicSums : List ℚ
  pragueSums : List ℚ
deriving DecidableEq

/-- The body of the per-run loop of `main` (iperf_csv.py lines 96-155).
`fs i j` is the content of the j-th candidate file of run `i` (j = 0, 1, 2 are
the cubic files, j = 3 the prague file; their names contain "cubic" resp.
"prague"), `none` when `os.path.exists` fails and the file is skipped.
After the four files, the run's cubic and prague sums are recorded
unconditionally (lines 154-155). -/
def processRun (fs : ℕ → ℕ → Option (List IperfStream)) (i : ℕ)
    (acc : IperfAcc) : IperfAcc :=
  let step : (IperfAcc × ℚ × ℚ) → ℕ → (IperfAcc × ℚ × ℚ) := fun s j =>
    match fs i j with
    | none => s
    | some streams =>
      (parse_iperf_json (some streams)).1.foldl (fun s2 flow =>
        if j < 3 then
          ({ s2.1 with cubicUE := assocAppend flow.socket flow.mbps s2.1.cubicUE },
            s2.2.1 + flow.mbps, s2.2.2)
        else
          ({ s2.1 with pragueUE := assocAppend flow.socket flow.mbps s2.1.pragueUE },
            s2.2.1, s2.2.2 + flow.mbps)) s
  let r := [0, 1, 2, 3].foldl step (acc, 0, 0)
  { r.1 with cubicSums := r.1.cubicSums ++ [r.2.1],
             pragueSums := r.1.pragueSums ++ [r.2.2] }

/-- The whole aggregation loop of `main` over the run range (iperf_csv.py
lines 96-173). -/
def iperf_collect (fs : ℕ → ℕ → Option (List IperfStream)) (b e : ℕ) : IperfAcc :=
  (runRange b e).foldl (fun acc i => processRun fs i acc) ⟨[], [], [], []⟩

/-- Python `str(sock)` for the socket id read from the JSON. -/
def socketStr : Option ℕ → String
  | some n => toString n
  | none => "None"

/-- The rows of the multi-UE summary CSV (iperf_csv.py lines 186-226):
per-socket cubic rows, the cubic "ALL" row over the per-run sums, then the
prague rows.  Each statistics triple is (mean, variance, count). -/
def iperf_summary_rows (acc : IperfAcc) : List (String × String × (ℚ × ℚ × ℕ)) :=
  (acc.cubicUE.map (fun p => ("cubic", socketStr p.1, compute_mean_std p.2)))
    ++ [("cubic", "ALL", compute_mean_std acc.cubicSums)]
    ++ (acc.pragueUE.map (fun p => ("prague", socketStr p.1, compute_mean_std p.2)))
    ++ [("prague", "ALL", compute_mean_std acc.pragueSums)]

/-! ## rtt_plot.py: get_ue_type and the per-flow summary (plot 2) -/

/-- Lower-case a filename (`filename.lower()`). -/
def lowerCS (l : List Char) : List Char := l.map Char.toLower

/-- `os.path.basename`: the part after the last slash. -/
def basenameCS (l : List Char) : List Char :=
  (l.reverse.takeWhile (fun c => c ≠ '/')).reverse

/-- Whether `l` ends with `suf` (`str.endswith`). -/
def endsWithCS (l suf : List Char) : Bool :=
  suf.length ≤ l.length && List.drop (l.length - suf.length) l == suf

/-- `get_ue_type` (rtt_plot.py lines 10-33). -/
def get_ue_type (f : String) : String :=
  if f = "ALL_CUBIC" then "all_cubic"
  else
    let fn := lowerCS (basenameCS f.data)
    if endsWithCS fn "-ss-prague.txt".data then "prague"
    else if endsWithCS fn "-ss-cubic.txt".data then "cubic1"
    else if endsWithCS fn "-ss-cubic-2.txt".data then "cubic2"
    else if endsWithCS fn "-ss-cubic-3.txt".data then "cubic3"
    else "unknown"

/-- `ue_type_order` (rtt_plot.py lines 208-215): role priority, unknown last. -/
def ue_type_order (uet : String) : ℕ :=
  if uet = "prague" then 1
  else if uet = "cubic1" then 2
  else if uet = "cubic2" then 3
  else if uet = "cubic3" then 4
  else 99

/-- `flow_id_order` (rtt_plot.py lines 217-221): numeric flow id, 9999 when the
id does not parse as an int. -/
def flow_id_order (fid : String) : ℤ :=
  match pyInt fid.data with
  | some n => n
  | none => 9999

/-- A per-flow summary entry: (ue_type, flow id, mean, variance, count). -/
abbrev RttSummary := String × String × ℚ × ℚ × ℕ

/-- The sort key of `flow_summaries.sort` (rtt_plot.py line 224). -/
def rttKey (x : RttSummary) : ℕ × ℤ := (ue_type_order x.1, flow_id_order x.2.1)

/-- The (non-strict, total) sort order on summary entries: lexicographic on
the sort key, as used by the stable Python sort. -/
def rttLe (a b : RttSummary) : Prop :=
  (rttKey a).1 < (rttKey b).1 ∨
    ((rttKey a).1 = (rttKey b).1 ∧ (rttKey a).2 ≤ (rttKey b).2)

instance : DecidableRel rttLe := fun a b =>
  inferInstanceAs (Decidable ((rttKey a).1 < (rttKey b).1 ∨
    ((rttKey a).1 = (rttKey b).1 ∧ (rttKey a).2 ≤ (rttKey b).2)))

instance : IsTotal RttSummary rttLe where
  total a b := by
    rcases lt_trichotomy (rttKey a).1 (rttKey b).1 with h | h | h
    · exact Or.inl (Or.inl h)
    · rcases le_total (rttKey a).2 (rttKey b).2 with h2 | h2
      · exact Or.inl (Or.inr ⟨h, h2⟩)
      · exact Or.inr (Or.inr ⟨h.symm, h2⟩)
    · exact Or.inr (Or.inl h)

instance : IsTrans RttSummary rttLe where
  trans a b c hab hbc := by
    rcases hab with h1 | ⟨e1, l1⟩ <;> rcases hbc with h2 | ⟨e2, l2⟩
    · exact Or.inl (h1.trans h2)
    · exact Or.inl (e2 ▸ h1)
    · exact Or.inl (e1 ▸ h2)
    · exact Or.inr ⟨e1.trans e2, l1.trans l2⟩

/-- The `flow_map` accumulation of plot 2 (rtt_plot.py lines 194-200): rows are
(file, flow, srtt); aggregator rows (`flow = "ALL_FLOWS"`) and the synthetic
`ALL_CUBIC` file are skipped; the rest are grouped by (ue_type, flow) in an
insertion-ordered dict. -/
def rtt_flow_map (rows : List (String × String × ℚ)) :
    List ((String × String) × List ℚ) :=
  rows.foldl (fun m r =>
    if r.2.1 = "ALL_FLOWS" then m
    else if r.1 = "ALL_CUBIC" then m
    else assocAppend (get_ue_type r.1, r.2.1) r.2.2 m) []

/-- `flow_summaries` after the sort (rtt_plot.py lines 202-224): one summary
entry per group, sorted stably by (role priority, numeric id). -/
def rtt_flow_summaries (rows : List (String × String × ℚ)) : List RttSummary :=
  List.insertionSort rttLe
    ((rtt_flow_map rows).map (fun p => (p.1.1, p.1.2, mean_std p.2)))

/-! ## Process-exit models for the single-file commands (claim C7) -/

/-- Observable outcome of one script invocation: the process exit status and
the output files written before exiting. -/
structure ProcResult where
  exitCode : ℕ
  outputsWritten : List String
deriving DecidableEq

/-- `main` of dualq_plot.py (lines 72-119) given whether
`dualq_monitor_{idx}.txt` exists and the parsed samples: a missing file makes
`parse_dualq_monitor_delay_only` print a diagnostic and `sys.exit(1)` before
any output is written (lines 59-61); an existing file with no valid delay data
exits 0 without output (lines 87-89); otherwise the plot is written. -/
def dualq_plot_main (file_exists : Bool) (samples : List (ℚ × ℚ × ℚ))
    (idx : ℕ) : ProcResult :=
  if !file_exists then ⟨1, []⟩
  else if samples.isEmpty then ⟨0, []⟩
  else ⟨0, ["dualq_monitor_" ++ toString idx ++ "_delays_only.png"]⟩

/-- `plot_buffer_size_over_time` of rlc_no_slice.py under its `__main__`
driver (lines 132-143): a malformed index exits 1; a missing
`gnb_log_{idx}.log` prints a diagnostic and returns `None` (lines 73-75), after
which the process falls off the end of `__main__` and exits 0; a file with no
matching data likewise returns `None` (lines 77-79); otherwise the plot is
written and the process exits 0. -/
def rlc_no_slice_main (arg_ok : Bool) (file_exists : Bool) (has_data : Bool)
    (idx : ℕ) : ProcResult :=
  if !arg_ok then ⟨1, []⟩
  else if !file_exists then ⟨0, []⟩
  else if !has_data then ⟨0, []⟩
  else ⟨0, ["gnb_log_" ++ toString idx ++ "_buffer_size.png"]⟩


/-! ## Concrete inputs used by the claim theorems and witnesses -/

/-- The character list of a string literal. -/
def chars (s : String) : List Char := s.data

/-- The seven raw marker/rtt lines of the specification's fd-pairing test,
exactly as quoted there (no timestamps). -/
def specFdLines : List (List Char) :=
  [chars "fd=5", chars "rtt:110.093", chars "fd=4", chars "rtt:999.0",
   chars "other", chars "fd=7", chars "rtt:50.0"]

/-- The same marker/rtt sequence with leading timestamps that pass the
60-second warm-up gate relative to the first parseable line. -/
def timedFdLines : List (List Char) :=
  [chars "0 start", chars "60 fd=5", chars "60.5 rtt:110.093", chars "61 fd=4",
   chars "61.5 rtt:999.0", chars "62 other", chars "63 fd=7",
   chars "63.5 rtt:50.0"]

/-- A marker followed by a timestamped non-matching line and then an rtt line. -/
def gapFdLines : List (List Char) :=
  [chars "0 start", chars "60 fd=9", chars "61 other", chars "62 rtt:1.5"]

/-- A marker followed by a line with no parseable timestamp and then an rtt
line. -/
def skipFdLines : List (List Char) :=
  [chars "0 start", chars "60 fd=9", chars "garbage", chars "62 rtt:1.5"]

/-- A qdisc line whose first token parses as the float 60 but does not match
the anchored `^(\d+\.\d+)` timestamp pattern of dualq_plot.py. -/
def intTsDelayLine : List Char := chars "60 delay_c 3us delay_l 4us"

/-- A well-formed qdisc delay line. -/
def goodDelayLine : List Char := chars "1.5 delay_c 3us delay_l 4us"

/-- An ss log with one fd marker and one rtt line past the warm-up gate. -/
def ssWarmLines : List (List Char) :=
  [chars "0 x", chars "75.5 fd=6", chars "80 rtt:12.25"]

/-- A TBF monitor file: one line fixing the first timestamp, one data line
61/2 seconds later. -/
def fifoContent : List (List Char) :=
  [chars "0.0 start", chars "60.5 qdisc (dropped 0, backlog 1000b 2p requeues 0"]

/-- A run-file layout where only run 1 has the monitor file above. -/
def fifoFs : ℕ → Option (List (List Char)) :=
  fun i => if i = 1 then some fifoContent else none

/-- An iperf run-file layout: run 1 has one cubic file with a single 10 Mbps
flow; run 2 has no files at all. -/
def iperfFsMissing : ℕ → ℕ → Option (List IperfStream) :=
  fun i j => if i = 1 ∧ j = 0 then some [⟨some 5, 10 * 10 ^ 6⟩] else none

/-- An iperf run-file layout with three cubic flows of 10/20/30 Mbps in run 1
and three of 5 Mbps each in run 2 (the specification's two-level reduction
example). -/
def iperfFsTwoRuns : ℕ → ℕ → Option (List IperfStream) :=
  fun i j =>
    if i = 1 ∧ j = 0 then
      some [⟨some 1, 10 * 10 ^ 6⟩, ⟨some 2, 20 * 10 ^ 6⟩, ⟨some 3, 30 * 10 ^ 6⟩]
    else if i = 2 ∧ j = 0 then
      some [⟨some 1, 5 * 10 ^ 6⟩, ⟨some 2, 5 * 10 ^ 6⟩, ⟨some 3, 5 * 10 ^ 6⟩]
    else none

/-- Two per-flow CSV rows whose flow ids are textually distinct but numerically
equal ("5" and "05"), in two encounter orders. -/
def rowsFlow5First : List (String × String × ℚ) :=
  [("a-ss-cubic.txt", "5", 1), ("a-ss-cubic.txt", "05", 2)]

/-- The same two rows in the opposite encounter order. -/
def rowsFlow05First : List (String × String × ℚ) :=
  [("a-ss-cubic.txt", "05", 2), ("a-ss-cubic.txt", "5", 1)]

/-! ## Helper lemmas -/

/-- The length of a `filterMap` counts the elements on which the function
succeeds. -/
theorem length_filterMap_eq_countP (f : α → Option β) :
    ∀ l : List α, (l.filterMap f).length = l.countP (fun a => (f a).isSome)
  | [] => rfl
  | a :: l => by
    cases h : f a <;>
      simp [List.filterMap_cons, h, List.countP_cons,
        length_filterMap_eq_countP f l]


/-- One ss line never leaves an fd=4 pending context and never emits an fd=4
sample (ss_csv.py lines 49-54: a matched fd of 4 clears the context). -/
theorem ssLine_fd4 (st : SsState) (line : List Char)
    (h1 : st.last_fd ≠ some 4) (h2 : ∀ s ∈ st.flow, s.1 ≠ 4) :
    (ssLine st line).last_fd ≠ some 4 ∧
    ∀ s ∈ (ssLine st line).flow, s.1 ≠ 4 := by
  obtain ⟨flow, lfd, ft⟩ := st
  cases hl : lineTs line with
  | none =>
    simp only [ssLine, hl]
    exact ⟨h1, h2⟩
  | some ts =>
    by_cases hcond : ts - (Option.getD ft ts) < 60
    · simp only [ssLine, hl, if_pos hcond]
      exact ⟨h1, h2⟩
    · simp only [ssLine, hl, if_neg hcond]
      cases hfd : searchFd (pyStrip line) with
      | some fdVal =>
        by_cases h4 : fdVal = 4
        · simp only [hfd, if_pos h4]
          exact ⟨by simp, h2⟩
        · simp only [hfd, if_neg h4]
          exact ⟨by simp [h4], h2⟩
      | none =>
        cases lfd with
        | some fd =>
          cases hrt : searchRtt (pyStrip line) with
          | some v =>
            simp only [hfd, hrt]
            refine ⟨by simp, ?_⟩
            intro s hs
            rcases List.mem_append.mp hs with hs | hs
            · exact h2 s hs
            · rcases List.mem_singleton.mp hs with rfl
              intro hc
              exact h1 (congrArg some hc)
          | none =>
            simp only [hfd, hrt]
            exact ⟨by simp, h2⟩
        | none =>
          simp only [hfd]
          exact ⟨by simp, h2⟩

/-- Folding ssLine never emits an fd=4 sample. -/
theorem ss_fold_fd4 : ∀ (lines : List (List Char)) (st : SsState),
    st.last_fd ≠ some 4 → (∀ s ∈ st.flow, s.1 ≠ 4) →
    ∀ s ∈ (lines.foldl ssLine st).flow, s.1 ≠ 4
  | [], _, _, h2 => by simpa using h2
  | line :: rest, st, h1, h2 => by
    obtain ⟨g1, g2⟩ := ssLine_fd4 st line h1 h2
    rw [List.foldl_cons]
    exact ss_fold_fd4 rest _ g1 g2

/-! ## Claim theorems -/

set_option maxRecDepth 16000 in
unseal Rat.add Rat.mul Rat.sub Rat.inv Rat.ofScientific in
/-- Claim C5: the group statistic helpers compute_mean_std and mean_std return
mean 0, stddev 0, count 0 for an empty list; mean v, stddev 0, count 1 for a
singleton [v]; and for longer lists the arithmetic mean with the population
standard deviation (divisor = count, pstdev convention): on [10, 20, 30] they
return mean 20, count 3, and variance 200/3, whose square root (the stddev)
is within 1/1000 of 8.165. -/
theorem claim_c5_helpers :
    (∀ v : ℚ, compute_mean_std [v] = (v, 0, 1) ∧ mean_std [v] = (v, 0, 1)) ∧
    compute_mean_std [] = (0, 0, 0) ∧ mean_std [] = (0, 0, 0) ∧
    compute_mean_std [10, 20, 30] = (20, 200 / 3, 3) ∧
    mean_std [10, 20, 30] = (20, 200 / 3, 3) ∧
    |Real.sqrt (((compute_mean_std [10, 20, 30]).2.1 : ℚ) : ℝ) - 8.165| <
      1 / 1000 := by
  refine ⟨fun v => ⟨rfl, rfl⟩, rfl, rfl, by decide, by decide, ?_⟩
  have h : (compute_mean_std [10, 20, 30]).2.1 = (200 / 3 : ℚ) := by decide
  rw [h]
  have hc : (((200 / 3 : ℚ)) : ℝ) = 200 / 3 := by norm_num
  rw [hc]
  have h1 : Real.sqrt (200 / 3) < 8.166 :=
    (Real.sqrt_lt' (by norm_num)).mpr (by norm_num)
  have h2 : (8.164 : ℝ) < Real.sqrt (200 / 3) :=
    (Real.lt_sqrt (by norm_num)).mpr (by norm_num)
  rw [abs_sub_lt_iff]
  constructor <;> linarith

set_option maxRecDepth 16000 in
unseal Rat.add Rat.mul Rat.sub Rat.inv Rat.ofScientific in
/-- Claim C4: the combined two-level reduction of iperf_csv.py first sums the
cubic flows within each run (per-run sums 60 and 15 for runs with flow values
10/20/30 and 5/5/5), then takes the cross-run mean 37.5 and population
standard deviation 22.5 (the square root of the returned variance 506.25) of
those per-run sums. -/
theorem claim_c4_two_level :
    (iperf_collect iperfFsTwoRuns 1 2).cubicSums = [60, 15] ∧
    compute_mean_std (iperf_collect iperfFsTwoRuns 1 2).cubicSums =
      (37.5, 506.25, 2) ∧
    Real.sqrt
      (((compute_mean_std (iperf_collect iperfFsTwoRuns 1 2).cubicSums).2.1 :
        ℚ) : ℝ) = 22.5 := by
  refine ⟨by decide, by decide, ?_⟩
  have h : (compute_mean_std (iperf_collect iperfFsTwoRuns 1 2).cubicSums).2.1
      = (506.25 : ℚ) := by decide
  rw [h]
  have hc : (((506.25 : ℚ)) : ℝ) = 22.5 ^ 2 := by norm_num
  rw [hc, Real.sqrt_sq (by norm_num)]

/-- Claim C10: compute_mean_queue_delay returns the bare scalar 0.0 exactly
when no delay sample over the whole run range survives the 60-second warm-up
and the 0.1-second cutoff, and a (mean, std) pair exactly otherwise, so the
unconditional two-value unpacking in main succeeds exactly in the non-empty
case. -/
theorem claim_c10_scalar_or_pair (fs : ℕ → Option (List (List Char)))
    (b e : ℕ) (s : ℚ) :
    (compute_mean_queue_delay fs b e s = .scalar 0 ↔ allDelays fs b e s = []) ∧
    ((fifo_main_unpack (compute_mean_queue_delay fs b e s)).isSome ↔
      allDelays fs b e s ≠ []) ∧
    (allDelays fs b e s ≠ [] → compute_mean_queue_delay fs b e s =
      .pair (pymean (allDelays fs b e s)) (pvariance (allDelays fs b e s))) := by
  by_cases h : allDelays fs b e s = [] <;>
    simp [compute_mean_queue_delay, fifo_main_unpack, h, List.isEmpty_iff]

/-- Witness for claim C10 at a concrete layout with no files, hence no
surviving delay samples: the bare scalar 0.0 is returned. -/
theorem claim_c10_witness :
    compute_mean_queue_delay (fun _ => none) 1 3 50 = .scalar 0 :=
  (claim_c10_scalar_or_pair (fun _ => none) 1 3 50).1.mpr (by decide)

/-- Claim C7 counterexample: rlc_no_slice.py is a single-file command, yet on
a missing gnb_log_7.log it prints the diagnostic, returns None, and the
process exits with status 0, not non-zero as claimed (though indeed no output
is written). -/
theorem claim_c7_counterexample :
    rlc_no_slice_main true false true 7 = ⟨0, []⟩ ∧
    (rlc_no_slice_main true false true 7).exitCode = 0 :=
  ⟨rfl, rfl⟩

/-- Claim C7 amended: on a missing single input file, dualq_plot.py (and
likewise fifo_plot.py, rtt_plot.py, thp_plot.py, which share the
print-then-sys.exit(1) pattern) exits with status 1 after a diagnostic and
writes nothing, while the RLC log plotters (rlc_no_slice.py, rlc_sliced.py)
print a diagnostic, return None, and exit with status 0; in every case no
partial output is written. -/
theorem claim_c7_amended (samples : List (ℚ × ℚ × ℚ)) (hd : Bool) (idx : ℕ) :
    dualq_plot_main false samples idx = ⟨1, []⟩ ∧
    rlc_no_slice_main true false hd idx = ⟨0, []⟩ :=
  ⟨rfl, rfl⟩

set_option maxRecDepth 16000 in
unseal Rat.add Rat.mul Rat.sub Rat.inv Rat.ofScientific in
/-- Claim C2 counterexample: on the seven raw lines quoted by the
specification (which carry no leading timestamps), parse_srtt_from_log
produces no samples at all -- every line is dropped by the timestamp parse and
warm-up gate before the fd/rtt logic runs -- rather than the claimed two
samples fd 5 -> 110.093 and fd 7 -> 50.0. -/
theorem claim_c2_counterexample :
    ss_samples specFdLines = [] ∧ parse_srtt_from_log specFdLines = [] := by
  decide

set_option maxRecDepth 16000 in
unseal Rat.add Rat.mul Rat.sub Rat.inv Rat.ofScientific in
/-- Claim C2 amended: the fd-marker/rtt pairing behaves as claimed only for
lines that begin with a whitespace-delimited token parseable as a float
timestamp lying at least 60 seconds after the file's first parseable
timestamp.  With such timestamps added, the specification's seven-line example
yields exactly the two samples fd 5 -> 110.093 and fd 7 -> 50.0 (the rtt
following the fd=4 marker is discarded); a timestamped non-matching line after
a marker invalidates the pending fd (zero samples from that marker); but a
line with no parseable timestamp is skipped wholesale and does not invalidate
the pending fd. -/
theorem claim_c2_amended :
    ss_samples timedFdLines =
      [(5, 60.5, 110.093), (7, 63.5, 50)] ∧
    parse_srtt_from_log timedFdLines = [(5, [110.093]), (7, [50])] ∧
    ss_samples gapFdLines = [] ∧
    ss_samples skipFdLines = [(9, 62, 1.5)] ∧
    ∀ (lines : List (List Char)) (s : ℕ × ℚ × ℚ),
      s ∈ ss_samples lines → s.1 ≠ 4 := by
  refine ⟨by decide, by decide, by decide, by decide, ?_⟩
  intro lines s hs
  exact ss_fold_fd4 lines ⟨[], none, none⟩ (by simp) (by intro s hs; simp at hs)
    s hs

set_option maxRecDepth 16000 in
unseal Rat.add Rat.mul Rat.sub Rat.inv Rat.ofScientific in
/-- Witness for claim C2 amended: the first sample of the timestamped example
is tagged fd 5, which is indeed not the excluded fd 4. -/
theorem claim_c2_amended_witness : ((5 : ℕ), (60.5 : ℚ), (110.093 : ℚ)).1 ≠ 4 :=
  claim_c2_amended.2.2.2.2 timedFdLines (5, 60.5, 110.093) (by decide)

set_option maxRecDepth 16000 in
unseal Rat.add Rat.mul Rat.sub Rat.inv Rat.ofScientific in
/-- Claim C3 counterexample: the line "60 delay_c 3us delay_l 4us" begins with
the token "60", which parses as the float 60, and contains both delay tokens,
yet the extractor emits no sample for it (and the file of that single line
yields no samples): the anchored timestamp pattern of dualq_plot.py requires a
digits-dot-digits prefix, which "60" does not match. -/
theorem claim_c3_counterexample :
    lineTs intTsDelayLine = some 60 ∧
    searchDelay intTsDelayLine = some (3, 4) ∧
    parseDualqLine intTsDelayLine = none ∧
    parse_dualq_monitor_delay_only [intTsDelayLine] = [] := by
  decide

/-- Claim C3 amended: a (stripped) line emits exactly one sample (t, A, B)
when its start matches the digits-dot-digits timestamp pattern with value t
and it contains "delay_c Aus delay_l Bus"; the file-level result is a
permutation of the per-line extraction, sorted by timestamp, and its length
counts exactly the well-formed lines, so N well-formed lines interleaved with
M noise lines yield exactly N samples. -/
theorem claim_c3_amended (lines : List (List Char)) :
    (parse_dualq_monitor_delay_only lines).Perm
      (lines.filterMap parseDualqLine) ∧
    (parse_dualq_monitor_delay_only lines).Sorted dqLe ∧
    (parse_dualq_monitor_delay_only lines).length =
      lines.countP (fun l => (parseDualqLine l).isSome) ∧
    (∀ l t a b, timeAt (pyStrip l) = some t →
      searchDelay (pyStrip l) = some (a, b) →
      parseDualqLine l = some (t, (a : ℚ), (b : ℚ))) := by
  refine ⟨List.perm_insertionSort _ _, List.sorted_insertionSort _ _, ?_, ?_⟩
  · rw [parse_dualq_monitor_delay_only,
      (List.perm_insertionSort dqLe (lines.filterMap parseDualqLine)).length_eq,
      length_filterMap_eq_countP]
  · intro l t a b h1 h2
    simp [parseDualqLine, h1, h2]

set_option maxRecDepth 16000 in
unseal Rat.add Rat.mul Rat.sub Rat.inv Rat.ofScientific in
/-- Witness for claim C3 amended at a concrete well-formed line. -/
theorem claim_c3_amended_witness :
    parseDualqLine goodDelayLine = some (1.5, 3, 4) :=
  (claim_c3_amended [goodDelayLine]).2.2.2 goodDelayLine 1.5 3 4
    (by decide) (by decide)

set_option maxRecDepth 16000 in
unseal Rat.add Rat.mul Rat.sub Rat.inv Rat.ofScientific in
/-- Claim C1 counterexample: over the range [1, 2] where run 2 has no files at
all, iperf_csv.py records 0.0 as run 2's cubic per-run sum, so a 0-valued data
point for the missing run does enter the combined-sum mean/stddev computation:
the cubic "ALL" row becomes (mean 5, variance 25, count 2) instead of the
gap-preserving (mean 10, count 1) the claim requires. -/
theorem claim_c1_counterexample :
    (iperf_collect iperfFsMissing 1 2).cubicSums = [10, 0] ∧
    (0 : ℚ) ∈ (iperf_collect iperfFsMissing 1 2).cubicSums ∧
    compute_mean_std (iperf_collect iperfFsMissing 1 2).cubicSums =
      (5, 25, 2) := by
  decide

/-- Claim C1 amended: a run whose four expected files are all absent
contributes no data point to any per-socket cross-run aggregate (the per-UE
maps are untouched), but the combined-sum aggregates unconditionally record
0.0 for that run for both roles, so absent runs do enter the "ALL" mean/stddev
computations as zeros and the "ALL" count equals the full number of runs in
the range rather than showing a count=0 gap. -/
theorem claim_c1_amended (fs : ℕ → ℕ → Option (List IperfStream)) (i : ℕ)
    (acc : IperfAcc) (h0 : fs i 0 = none) (h1 : fs i 1 = none)
    (h2 : fs i 2 = none) (h3 : fs i 3 = none) :
    processRun fs i acc =
      { acc with cubicSums := acc.cubicSums ++ [0],
                 pragueSums := acc.pragueSums ++ [0] } := by
  simp [processRun, h0, h1, h2, h3]

/-- Witness for claim C1 amended: a run with no files leaves the per-UE maps
empty and appends exactly one 0.0 to each role's per-run sum list. -/
theorem claim_c1_amended_witness :
    processRun (fun _ _ => none) 0 ⟨[], [], [], []⟩ = ⟨[], [], [0], [0]⟩ :=
  claim_c1_amended (fun _ _ => none) 0 ⟨[], [], [], []⟩ rfl rfl rfl rfl

set_option maxRecDepth 16000 in
unseal Rat.add Rat.mul Rat.sub Rat.inv Rat.ofScientific in
/-- Claim C8 counterexample: two rows whose flow ids "5" and "05" are
textually distinct but numerically equal form the same multiset in either
encounter order, yet produce per-flow summaries in different orders, because
the sort key (role priority, numeric id) ties and the stable sort preserves
encounter order -- so the output is not independent of input encounter
order. -/
theorem claim_c8_counterexample :
    rowsFlow5First.Perm rowsFlow05First ∧
    rtt_flow_summaries rowsFlow5First ≠ rtt_flow_summaries rowsFlow05First := by
  decide

/-- Claim C8 amended: the per-flow summary output is always sorted by the
documented total order (role priority prague < cubic1 < cubic2 < cubic3 <
unknown, then numeric flow id ascending) and is a permutation of the grouped
summaries; rows whose sort keys tie appear in encounter order, so the output
is independent of the input's encounter order only when all sort keys are
distinct. -/
theorem claim_c8_amended (rows : List (String × String × ℚ)) :
    (rtt_flow_summaries rows).Sorted rttLe ∧
    (rtt_flow_summaries rows).Perm
      ((rtt_flow_map rows).map (fun p => (p.1.1, p.1.2, mean_std p.2))) :=
  ⟨List.sorted_insertionSort _ _, List.perm_insertionSort _ _⟩

/-- firstTs distributes over cons. -/
theorem firstTs_cons (line : List Char) (rest : List (List Char)) :
    firstTs (line :: rest) = (lineTs line).or (firstTs rest) := by
  simp only [firstTs, List.findSome?_cons]
  cases lineTs line <;> rfl

/-- One ss line preserves the warm-up invariant: the tracked first timestamp
matches the first parseable timestamp of the consumed prefix, and every
emitted sample stems from a line at least 60 seconds after it. -/
theorem ssLine_inv (flow : List (ℕ × ℚ × ℚ)) (lfd : Option ℕ) (f? : Option ℚ)
    (line : List Char)
    (hflow : ∀ s ∈ flow, ∃ f, f? = some f ∧ 60 ≤ s.2.1 - f) :
    (ssLine ⟨flow, lfd, f?⟩ line).first_timestamp = f?.or (lineTs line) ∧
    ∀ s ∈ (ssLine ⟨flow, lfd, f?⟩ line).flow,
      ∃ f, f?.or (lineTs line) = some f ∧ 60 ≤ s.2.1 - f := by
  cases hl : lineTs line with
  | none =>
    simp only [ssLine, hl, Option.or_none]
    exact ⟨by trivial, hflow⟩
  | some ts =>
    cases f? with
    | none =>
      have hempty : flow = [] := by
        cases hfl : flow with
        | nil => rfl
        | cons s rest =>
          obtain ⟨f, hf, _⟩ :=
            hflow s (by rw [hfl]; exact List.mem_cons_self s rest)
          exact Option.noConfusion hf
      subst hempty
      have hcond : ts - (Option.getD (none : Option ℚ) ts) < 60 := by
        rw [Option.getD_none, sub_self]; norm_num
      simp only [ssLine, hl, if_pos hcond]
      refine ⟨by trivial, ?_⟩
      intro s hs
      simp at hs
    | some f0 =>
      by_cases hcond : ts - (Option.getD (some f0) ts) < 60
      · simp only [ssLine, hl, if_pos hcond]
        exact ⟨by trivial, hflow⟩
      · simp only [ssLine, hl, if_neg hcond]
        rw [Option.getD_some] at hcond
        cases hfd : searchFd (pyStrip line) with
        | some fdVal =>
          by_cases h4 : fdVal = 4
          · simp only [hfd, if_pos h4]
            exact ⟨rfl, hflow⟩
          · simp only [hfd, if_neg h4]
            exact ⟨rfl, hflow⟩
        | none =>
          cases lfd with
          | some fd =>
            cases hrt : searchRtt (pyStrip line) with
            | some v =>
              simp only [hfd, hrt]
              refine ⟨rfl, fun s hs => ?_⟩
              rcases List.mem_append.mp hs with hs | hs
              · exact hflow s hs
              · rcases List.mem_singleton.mp hs with rfl
                exact ⟨f0, rfl, by linarith [not_lt.mp hcond]⟩
            | none =>
              simp only [hfd, hrt]
              exact ⟨rfl, hflow⟩
          | none =>
            simp only [hfd]
            exact ⟨rfl, hflow⟩

/-- Folding ssLine over a list of lines preserves the warm-up invariant. -/
theorem ss_fold_inv : ∀ (lines : List (List Char)) (st : SsState) (f? : Option ℚ),
    st.first_timestamp = f? →
    (∀ s ∈ st.flow, ∃ f, f? = some f ∧ 60 ≤ s.2.1 - f) →
    (lines.foldl ssLine st).first_timestamp = f?.or (firstTs lines) ∧
    ∀ s ∈ (lines.foldl ssLine st).flow,
      ∃ f, f?.or (firstTs lines) = some f ∧ 60 ≤ s.2.1 - f
  | [], st, f?, hft, hflow => by
    simp only [List.foldl_nil, firstTs, List.findSome?_nil, Option.or_none]
    exact ⟨hft, hflow⟩
  | line :: rest, st, f?, hft, hflow => by
    obtain ⟨flow, lfd, ft⟩ := st
    cases hft
    obtain ⟨h1, h2⟩ := ssLine_inv flow lfd ft line hflow
    have h3 := ss_fold_inv rest (ssLine ⟨flow, lfd, ft⟩ line)
      (ft.or (lineTs line)) h1 h2
    rw [List.foldl_cons, firstTs_cons, ← Option.or_assoc]
    exact h3

/-- Claim C6: the warm-up-gated ss extractor never produces an rtt sample from
a line whose timestamp is less than 60 seconds after the file's first
parseable timestamp: every emitted sample's line timestamp t satisfies
t - first_timestamp >= 60. -/
theorem claim_c6_warmup_gate (lines : List (List Char)) (s : ℕ × ℚ × ℚ)
    (hs : s ∈ ss_samples lines) :
    ∃ f, firstTs lines = some f ∧ 60 ≤ s.2.1 - f := by
  have h := ss_fold_inv lines ⟨[], none, none⟩ none rfl
    (by intro s hs; simp at hs)
  rw [Option.none_or] at h
  exact h.2 s hs

set_option maxRecDepth 16000 in
unseal Rat.add Rat.mul Rat.sub Rat.inv Rat.ofScientific in
/-- Witness for claim C6: in a concrete log whose first timestamp is 0, the
sample emitted at timestamp 80 is at least 60 seconds past it. -/
theorem claim_c6_witness :
    ∃ f, firstTs ssWarmLines = some f ∧ 60 ≤ (80 : ℚ) - f :=
  claim_c6_warmup_gate ssWarmLines (6, 80, 12.25) (by decide)

/-- One fifo line preserves the warm-up invariant of parse_fifo_file: the -1
sentinel is kept while no parseable timestamp was seen; once the first
parseable timestamp f is nonnegative, begin_ts equals f forever; and every
stored sample stems from a line at least 60 seconds after the first parseable
timestamp. -/
theorem fifoLine_inv (samples : List FifoSample) (bts : ℚ) (f? : Option ℚ)
    (line : List Char)
    (hb1 : f? = none → bts = -1)
    (hb2 : ∀ f, f? = some f → 0 ≤ f → bts = f)
    (hsm : ∀ smp ∈ samples, ∃ f, f? = some f ∧ 60 ≤ smp.ts - f) :
    (f?.or (lineTs line) = none → (fifoLine ⟨samples, bts⟩ line).begin_ts = -1) ∧
    (∀ f, f?.or (lineTs line) = some f → 0 ≤ f →
      (fifoLine ⟨samples, bts⟩ line).begin_ts = f) ∧
    (∀ smp ∈ (fifoLine ⟨samples, bts⟩ line).samples,
      ∃ f, f?.or (lineTs line) = some f ∧ 60 ≤ smp.ts - f) := by
  cases hl : lineTs line with
  | none =>
    simp only [fifoLine, hl, Option.or_none]
    exact ⟨hb1, hb2, hsm⟩
  | some ts =>
    cases f? with
    | none =>
      have hbts : bts = -1 := hb1 rfl
      subst hbts
      have hneg : (-1 : ℚ) < 0 := by norm_num
      have hcond : ts - (if (-1 : ℚ) < 0 then ts else -1) < 60 := by
        rw [if_pos hneg, sub_self]; norm_num
      simp only [fifoLine, hl, if_pos hcond, Option.none_or]
      refine ⟨by intro h; exact Option.noConfusion h, ?_, ?_⟩
      · intro f hf hge
        rw [Option.some.injEq] at hf
        subst hf
        exact if_pos hneg
      · intro smp h
        obtain ⟨f, hf, _⟩ := hsm smp h
        exact Option.noConfusion hf
    | some f0 =>
      by_cases hbneg : bts < 0
      · have hf0neg : f0 < 0 := by
          by_contra hge
          push_neg at hge
          rw [hb2 f0 rfl hge] at hbneg
          exact absurd hbneg (not_lt.mpr hge)
        have hcond : ts - (if bts < 0 then ts else bts) < 60 := by
          rw [if_pos hbneg, sub_self]; norm_num
        simp only [fifoLine, hl, if_pos hcond]
        refine ⟨by intro h; exact Option.noConfusion h, ?_, ?_⟩
        · intro f hf hge
          injection hf with hf
          subst hf
          exact absurd hge (not_le.mpr hf0neg)
        · intro smp h
          exact hsm smp h
      · push_neg at hbneg
        have hb : (if bts < 0 then ts else bts) = bts := if_neg (not_lt.mpr hbneg)
        by_cases hcond : ts - bts < 60
        · have hcond2 : ts - (if bts < 0 then ts else bts) < 60 := by
            rw [hb]; exact hcond
          simp only [fifoLine, hl, if_pos hcond2]
          refine ⟨by intro h; exact Option.noConfusion h, ?_, ?_⟩
          · intro f hf hge
            injection hf with hf
            subst hf
            rw [hb]
            exact hb2 f0 rfl hge
          · intro smp h
            exact hsm smp h
        · have hcond2 : ¬ ts - (if bts < 0 then ts else bts) < 60 := by
            rw [hb]; exact hcond
          simp only [fifoLine, hl, if_neg hcond2]
          cases hd : searchDropped line with
          | none =>
            simp only [hd]
            refine ⟨by intro h; exact Option.noConfusion h, ?_, ?_⟩
            · intro f hf hge
              injection hf with hf
              subst hf
              rw [hb]
              exact hb2 f0 rfl hge
            · intro smp h
              exact hsm smp h
          | some d =>
            cases hbk : searchBacklog line with
            | none =>
              simp only [hd, hbk]
              refine ⟨by intro h; exact Option.noConfusion h, ?_, ?_⟩
              · intro f hf hge
                injection hf with hf
                subst hf
                rw [hb]
                exact hb2 f0 rfl hge
              · intro smp h
                exact hsm smp h
            | some p =>
              obtain ⟨bB, bP⟩ := p
              simp only [hd, hbk]
              refine ⟨by intro h; exact Option.noConfusion h, ?_, ?_⟩
              · intro f hf hge
                injection hf with hf
                subst hf
                rw [hb]
                exact hb2 f0 rfl hge
              · intro smp h
                rcases List.mem_append.mp h with h | h
                · exact hsm smp h
                · rcases List.mem_singleton.mp h with rfl
                  refine ⟨f0, rfl, ?_⟩
                  have hts : 60 ≤ ts - bts := not_lt.mp hcond
                  rcases le_or_lt 0 f0 with hge | hlt
                  · rw [hb2 f0 rfl hge] at hts
                    exact hts
                  · have : (60 : ℚ) ≤ ts := by linarith
                    linarith

/-- Folding fifoLine over the lines of a file preserves the warm-up
invariant. -/
theorem fifo_fold_inv :
    ∀ (lines : List (List Char)) (st : FifoState) (f? : Option ℚ),
    (f? = none → st.begin_ts = -1) →
    (∀ f, f? = some f → 0 ≤ f → st.begin_ts = f) →
    (∀ smp ∈ st.samples, ∃ f, f? = some f ∧ 60 ≤ smp.ts - f) →
    ∀ smp ∈ (lines.foldl fifoLine st).samples,
      ∃ f, f?.or (firstTs lines) = some f ∧ 60 ≤ smp.ts - f
  | [], st, f?, _, _, hsm => by
    simp only [List.foldl_nil, firstTs, List.findSome?_nil, Option.or_none]
    exact hsm
  | line :: rest, st, f?, hb1, hb2, hsm => by
    obtain ⟨samples, bts⟩ := st
    obtain ⟨g1, g2, g3⟩ := fifoLine_inv samples bts f? line hb1 hb2 hsm
    have h3 := fifo_fold_inv rest (fifoLine ⟨samples, bts⟩ line)
      (f?.or (lineTs line)) g1 g2 g3
    rw [List.foldl_cons, firstTs_cons, ← Option.or_assoc]
    exact h3

/-- Every sample of parse_fifo_file stems from a line at least 60 seconds
after the file's first parseable timestamp. -/
theorem parse_fifo_file_warmup (lines : List (List Char)) (smp : FifoSample)
    (h : smp ∈ parse_fifo_file lines) :
    ∃ f, firstTs lines = some f ∧ 60 ≤ smp.ts - f := by
  have hfold := fifo_fold_inv lines ⟨[], -1⟩ none (fun _ => rfl)
    (fun f hf => Option.noConfusion hf) (by intro smp h; simp at h)
  rw [Option.none_or] at hfold
  exact hfold smp h

/-- Membership in a fold that appends per-index contributions. -/
theorem mem_foldl_append {α : Type} (g : ℕ → List α) :
    ∀ (ris : List ℕ) (acc : List α) (x : α),
    (x ∈ ris.foldl (fun a i => a ++ g i) acc ↔ x ∈ acc ∨ ∃ i ∈ ris, x ∈ g i)
  | [], acc, x => by simp
  | i :: ris, acc, x => by
    rw [List.foldl_cons, mem_foldl_append g ris (acc ++ g i) x]
    simp [List.mem_append, or_assoc]

/-- Claim C9: every delay that enters the cross-run aggregation of
compute_mean_queue_delay satisfies the 0.1-second cutoff, and comes from a
backlog sample of an existing run file taken at least 60 seconds after that
file's first parseable timestamp; larger inferred delays are excluded. -/
theorem claim_c9_warmup_cutoff (fs : ℕ → Option (List (List Char))) (b e : ℕ)
    (speed : ℚ) (d : ℚ) (hd : d ∈ allDelays fs b e speed) :
    d ≤ 1 / 10 ∧
    ∃ i ∈ runRange b e, ∃ content, fs i = some content ∧
      ∃ smp ∈ parse_fifo_file content,
        d = (smp.backlog_bytes * 8 : ℚ) / (speed * 10 ^ 6) ∧
        ∃ f, firstTs content = some f ∧ 60 ≤ smp.ts - f := by
  rw [allDelays, mem_foldl_append] at hd
  rcases hd with hd | ⟨i, hi, hd⟩
  · simp at hd
  · rw [runDelays] at hd
    cases hc : fs i with
    | none => rw [hc] at hd; simp at hd
    | some content =>
      rw [hc] at hd
      rw [List.mem_filter] at hd
      obtain ⟨hmem, hle⟩ := hd
      rw [List.mem_map] at hmem
      obtain ⟨smp, hsmp, hdef⟩ := hmem
      refine ⟨by simpa using hle, i, hi, content, hc, smp, hsmp, hdef.symm, ?_⟩
      exact parse_fifo_file_warmup content smp hsmp

set_option maxRecDepth 16000 in
unseal Rat.add Rat.mul Rat.sub Rat.inv Rat.ofScientific in
/-- Witness for claim C9: the single surviving delay 1/125 of the concrete
layout respects the cutoff and stems from the sample at timestamp 60.5,
60.5 seconds after the file's first timestamp 0. -/
theorem claim_c9_witness :
    (1 / 125 : ℚ) ≤ 1 / 10 ∧
    ∃ i ∈ runRange 1 1, ∃ content, fifoFs i = some content ∧
      ∃ smp ∈ parse_fifo_file content,
        (1 / 125 : ℚ) = (smp.backlog_bytes * 8 : ℚ) / (1 * 10 ^ 6) ∧
        ∃ f, firstTs content = some f ∧ 60 ≤ smp.ts - f :=
  claim_c9_warmup_cutoff fifoFs 1 1 1 (1 / 125) (by decide)
